import Mathlib

/-!
Shallow embedding of the WebSocket media bridge (Twilio caller leg ↔
ElevenLabs agent leg).  Two source variants are modelled:

* `MB`   — `src/media-bridge.ts`: JSON-wrapped audio in both directions,
  ping/pong and interruption handling, no pre-ready audio buffer.
* `P1`   — `src/unnamed/part_001`: binary audio toward the agent leg,
  a pre-ready buffer of decoded byte chunks drained when the agent socket
  opens, binary agent audio re-encoded to base64 toward the caller;
  downstream JSON text messages are only logged.
* `P0`   — `src/unnamed/part_000`: like `P1` but the pre-ready buffer
  holds the still-base64 payload strings, decoded at flush time;
  downstream JSON text messages are likewise only logged.

Per-call mutable state becomes a record; each WebSocket event handler
becomes a function on that record; the asynchronous environment (socket
opens/closes, fetch completion, inbound messages) is an inductive event
type with a `step` function, and a reachable state is the fold of `step`
over an event list from the initial state.  Calling `close()` on a socket
synchronously runs the peer's `onclose` handler in this model; the
handlers are fuel-indexed because the close cascade nests them, and a
fuel of 4 is exhaustive since every effective call closes one of the two
sockets.
-/

/-- WebSocket readyState, restricted to the three phases the bridge
distinguishes (`CONNECTING`, `OPEN`, and `CLOSING`/`CLOSED` merged). -/
inductive SockSt where
  | connecting
  | opened
  | closed
deriving DecidableEq

/-- JavaScript truthiness of a nullable string field
(`undefined`/`null` and `""` are falsy). -/
def truthy : Option String → Bool
  | none => false
  | some s => !s.isEmpty

/-- JavaScript `a || b` on two nullable string fields, as used in
`message.audio?.chunk || message.audio_event?.audio_base_64`. -/
def jsOr (a b : Option String) : Option String :=
  if truthy a then a else b

/-- Frames the bridge sends to the caller (Twilio) socket: media frames
`{event:"media", streamSid, media:{payload}}` and clear frames
`{event:"clear", streamSid}` (a clear frame carries no payload field). -/
inductive TwilioOut where
  | media (sid : String) (payload : String)
  | clear (sid : String)
deriving DecidableEq

/-- The `streamSid` carried by an outbound caller-leg frame. -/
def TwilioOut.sid : TwilioOut → String
  | .media s _ => s
  | .clear s => s

/-- Messages `src/media-bridge.ts` sends to the agent (ElevenLabs) socket:
the one-time `conversation_initiation_client_data` message, forwarded
caller audio `{user_audio_chunk}`, and `{type:"pong", event_id}`. -/
inductive ElevenOut where
  | initMsg
  | userAudioChunk (payload : String)
  | pong (eventId : String)
deriving DecidableEq

/-- Inbound caller-leg events after JSON parsing (`twilioSocket.onmessage`);
`malformed` stands for input whose parse throws (caught and dropped). -/
inductive TwilioIn where
  | start (sid : String)
  | media (payload : String)
  | stop
  | malformed
deriving DecidableEq

/-- Inbound agent-leg JSON events in `src/media-bridge.ts`, keyed by
`type`: `audio` (with optional `audio.chunk` and
`audio_event.audio_base_64` fields), `interruption`, `ping` (with
optional `ping_event.event_id`), `conversation_initiation_metadata`,
any other type, and unparseable input. -/
inductive ElevenIn where
  | audio (chunk : Option String) (audioB64 : Option String)
  | interruption
  | ping (eventId : Option String)
  | metadata
  | other
  | malformed
deriving DecidableEq

/-- Per-call state of `src/media-bridge.ts`: the two sockets, the
mutable locals `streamSid` and `elevenlabsReady`, whether the signed-URL
fetch is in flight, the ordered frames sent to each peer, and counters
of effective `close()` calls on each socket. -/
structure MB where
  twilio : SockSt
  eleven : Option SockSt
  streamSid : Option String
  ready : Bool
  fetchPending : Bool
  twilioOut : List TwilioOut
  elevenOut : List ElevenOut
  twilioCloses : Nat
  elevenCloses : Nat
deriving DecidableEq

/-- State when the caller WebSocket has just been created by the upgrade. -/
def MB.init : MB :=
  { twilio := .connecting
    eleven := none
    streamSid := none
    ready := false
    fetchPending := false
    twilioOut := []
    elevenOut := []
    twilioCloses := 0
    elevenCloses := 0 }

mutual

/-- Body of `twilioSocket.onclose` (media-bridge.ts:183-188): if the
agent socket exists and is OPEN, close it. -/
def twilioOncloseH : Nat → MB → MB
  | 0, s => s
  | n + 1, s =>
      if s.eleven = some .opened then closeElevenH n s else s

/-- Body of `elevenlabsSocket.onclose` (media-bridge.ts:141-146): if the
caller socket is OPEN, close it. -/
def elevenOncloseH : Nat → MB → MB
  | 0, s => s
  | n + 1, s =>
      if s.twilio = .opened then closeTwilioH n s else s

/-- `elevenlabsSocket.close()`: a no-op on an absent or already-closed
socket; otherwise the socket closes and its `onclose` handler fires. -/
def closeElevenH : Nat → MB → MB
  | 0, s => s
  | n + 1, s =>
      if s.eleven = some .connecting ∨ s.eleven = some .opened then
        elevenOncloseH n
          { s with eleven := some .closed, elevenCloses := s.elevenCloses + 1 }
      else s

/-- `twilioSocket.close()`: a no-op on an already-closed socket;
otherwise the socket closes and its `onclose` handler fires. -/
def closeTwilioH : Nat → MB → MB
  | 0, s => s
  | n + 1, s =>
      if s.twilio = .closed then s
      else
        twilioOncloseH n
          { s with twilio := .closed, twilioCloses := s.twilioCloses + 1 }

end

/-- Body of `twilioSocket.onmessage` (media-bridge.ts:154-177). -/
def twilioOnmessage (s : MB) : TwilioIn → MB
  | .start sid => { s with streamSid := some sid }
  | .media payload =>
      if s.ready ∧ s.eleven = some .opened then
        { s with elevenOut := s.elevenOut ++ [.userAudioChunk payload] }
      else s
  | .stop =>
      if s.eleven = some .opened then closeElevenH 4 s else s
  | .malformed => s

/-- Body of `elevenlabsSocket.onmessage` (media-bridge.ts:84-135). -/
def elevenOnmessage (s : MB) : ElevenIn → MB
  | .audio chunk audioB64 =>
      if truthy s.streamSid ∧ s.twilio = .opened then
        let payload := jsOr chunk audioB64
        if truthy payload then
          { s with twilioOut :=
              s.twilioOut ++ [.media (s.streamSid.getD "") (payload.getD "")] }
        else s
      else s
  | .interruption =>
      if truthy s.streamSid ∧ s.twilio = .opened then
        { s with twilioOut := s.twilioOut ++ [.clear (s.streamSid.getD "")] }
      else s
  | .ping eventId =>
      if truthy eventId then
        { s with elevenOut := s.elevenOut ++ [.pong (eventId.getD "")] }
      else s
  | .metadata => s
  | .other => s
  | .malformed => s

/-- Environment events driving one call of `src/media-bridge.ts`:
the caller socket opening (which starts the signed-URL fetch), the fetch
resolving (non-ok closes the caller socket; ok creates the agent
socket), the agent socket opening (init message sent, readiness set),
inbound messages on either socket, and transport-level closes of either
socket. -/
inductive Ev where
  | twilioOpen
  | fetchResult (ok : Bool)
  | elevenOpen
  | twilioMsg (m : TwilioIn)
  | elevenMsg (m : ElevenIn)
  | twilioClosed
  | elevenClosed
deriving DecidableEq

/-- One environment event processed by the bridge.  Guards express when
the runtime can deliver the event: a socket only opens from CONNECTING,
only closes once, and only delivers messages while OPEN; the fetch only
resolves while in flight. -/
def step (s : MB) : Ev → MB
  | .twilioOpen =>
      if s.twilio = .connecting then
        { s with twilio := .opened, fetchPending := true }
      else s
  | .fetchResult ok =>
      if s.fetchPending then
        let s1 := { s with fetchPending := false }
        if ok then { s1 with eleven := some .connecting }
        else closeTwilioH 4 s1
      else s
  | .elevenOpen =>
      if s.eleven = some .connecting then
        { s with eleven := some .opened
                 elevenOut := s.elevenOut ++ [.initMsg]
                 ready := true }
      else s
  | .twilioMsg m =>
      if s.twilio = .opened then twilioOnmessage s m else s
  | .elevenMsg m =>
      if s.eleven = some .opened then elevenOnmessage s m else s
  | .twilioClosed =>
      if s.twilio = .closed then s
      else twilioOncloseH 4 { s with twilio := .closed }
  | .elevenClosed =>
      if s.eleven = some .connecting ∨ s.eleven = some .opened then
        elevenOncloseH 4 { s with eleven := some .closed }
      else s

/-- A run of the bridge over a list of environment events. -/
def run (s : MB) (evs : List Ev) : MB :=
  evs.foldl step s

/-! ### Base64 codec (`atob` / `btoa`)

Both legs' audio encodings in this repository are standard base64 with
the RFC 4648 alphabet and `=` padding: the caller-native payload is
base64 text, and the agent-native JSON-wrapped chunk is base64 text in a
field.  `src/unnamed/part_001` decodes with
`Uint8Array.from(atob(payload), c => c.charCodeAt(0))` and encodes with
`btoa(String.fromCharCode(...audioData))`.  Bytes are `Nat`s below 256. -/

/-- The base64 alphabet, index `n` encoding the six-bit value `n`. -/
def b64chars : List Char :=
  "ABCDEFGHIJKLMNOPQRSTUVWXYZabcdefghijklmnopqrstuvwxyz0123456789+/".data

/-- Six-bit value to base64 digit. -/
def encChar (n : Nat) : Char := b64chars.getD n '='

/-- Base64 digit back to its six-bit value; `none` on a non-digit. -/
def decChar (c : Char) : Option Nat := b64chars.findIdx? (· == c)

/-- `btoa`: byte list to base64 text (3 bytes per 4 digits, `=`-padded). -/
def btoaFn : List Nat → List Char
  | [] => []
  | [a] => [encChar (a / 4), encChar (a % 4 * 16), '=', '=']
  | [a, b] =>
      [encChar (a / 4), encChar (a % 4 * 16 + b / 16), encChar (b % 16 * 4), '=']
  | a :: b :: c :: rest =>
      encChar (a / 4) :: encChar (a % 4 * 16 + b / 16) ::
        encChar (b % 16 * 4 + c / 64) :: encChar (c % 64) :: btoaFn rest

/-- `atob`: base64 text back to bytes; `none` when a digit is invalid or
the length is not a multiple of four (the JS function throws there,
which the calling handler catches and treats as drop-this-unit). -/
def atobFn : List Char → Option (List Nat)
  | [] => some []
  | c1 :: c2 :: c3 :: c4 :: rest =>
      match decChar c1, decChar c2 with
      | some a, some b =>
          if c3 = '=' ∧ c4 = '=' ∧ rest = [] then
            some [a * 4 + b / 16]
          else
            match decChar c3 with
            | some c =>
                if c4 = '=' ∧ rest = [] then
                  some [a * 4 + b / 16, b % 16 * 16 + c / 4]
                else
                  match decChar c4, atobFn rest with
                  | some d, some tail =>
                      some ((a * 4 + b / 16) :: (b % 16 * 16 + c / 4) ::
                        ((c % 4 * 64 + d) :: tail))
                  | _, _ => none
            | none => none
      | _, _ => none
  | _ => none

/-- `atob` on a payload string, as the handlers receive it. -/
def atobStr (s : String) : Option (List Nat) := atobFn s.data

/-! ### `src/unnamed/part_001`: the buffered variant -/

/-- Messages `part_001` sends to the agent socket: the one-time session
configuration, and raw binary audio chunks (decoded bytes). -/
inductive P1ElevenOut where
  | initMsg
  | bytes (b : List Nat)
deriving DecidableEq

/-- Inbound agent-leg data in `part_001`: a binary frame (Blob) of audio
bytes, a JSON text message — parsed, its `type` logged, and otherwise
ignored whatever event it carries (pings and interruptions included) —
or unparseable text. -/
inductive P1ElevenIn where
  | binary (b : List Nat)
  | json (m : ElevenIn)
  | malformed
deriving DecidableEq

/-- Per-call state of `src/unnamed/part_001`: as `MB`, plus the
`audioBuffer: Uint8Array[]` of decoded caller audio awaiting agent-leg
readiness. -/
structure P1 where
  twilio : SockSt
  eleven : Option SockSt
  streamSid : Option String
  ready : Bool
  fetchPending : Bool
  audioBuffer : List (List Nat)
  twilioOut : List TwilioOut
  elevenOut : List P1ElevenOut
  twilioCloses : Nat
  elevenCloses : Nat
deriving DecidableEq

/-- Initial `part_001` state at upgrade time. -/
def P1.init : P1 :=
  { twilio := .connecting
    eleven := none
    streamSid := none
    ready := false
    fetchPending := false
    audioBuffer := []
    twilioOut := []
    elevenOut := []
    twilioCloses := 0
    elevenCloses := 0 }

mutual

/-- Body of `part_001`'s `twilioSocket.onclose` (lines 174-179). -/
def p1TwilioOncloseH : Nat → P1 → P1
  | 0, s => s
  | n + 1, s =>
      if s.eleven = some .opened then p1CloseElevenH n s else s

/-- Body of `part_001`'s `elevenlabsSocket.onclose` (lines 129-134). -/
def p1ElevenOncloseH : Nat → P1 → P1
  | 0, s => s
  | n + 1, s =>
      if s.twilio = .opened then p1CloseTwilioH n s else s

/-- `elevenlabsSocket.close()` in `part_001`. -/
def p1CloseElevenH : Nat → P1 → P1
  | 0, s => s
  | n + 1, s =>
      if s.eleven = some .connecting ∨ s.eleven = some .opened then
        p1ElevenOncloseH n
          { s with eleven := some .closed, elevenCloses := s.elevenCloses + 1 }
      else s

/-- `twilioSocket.close()` in `part_001`. -/
def p1CloseTwilioH : Nat → P1 → P1
  | 0, s => s
  | n + 1, s =>
      if s.twilio = .closed then s
      else
        p1TwilioOncloseH n
          { s with twilio := .closed, twilioCloses := s.twilioCloses + 1 }

end

/-- Body of `part_001`'s `twilioSocket.onmessage` (lines 142-168).  On
`media` the payload is decoded with `atob`; an invalid payload throws,
is caught, and the single message is dropped.  Decoded bytes are sent as
a binary frame when the agent leg is ready and open, and buffered
otherwise. -/
def p1TwilioOnmessage (s : P1) : TwilioIn → P1
  | .start sid => { s with streamSid := some sid }
  | .media payload =>
      match atobStr payload with
      | none => s
      | some bs =>
          if s.ready ∧ s.eleven = some .opened then
            { s with elevenOut := s.elevenOut ++ [.bytes bs] }
          else
            { s with audioBuffer := s.audioBuffer ++ [bs] }
  | .stop =>
      if s.eleven = some .opened then p1CloseElevenH 4 s else s
  | .malformed => s

/-- Body of `part_001`'s `elevenlabsSocket.onmessage` (lines 96-123):
binary agent audio is re-encoded with `btoa` and sent to the caller as a
media frame when the caller socket is OPEN and `streamSid` is truthy;
a JSON text message is only logged, whatever event it carries. -/
def p1ElevenOnmessage (s : P1) : P1ElevenIn → P1
  | .binary bs =>
      if s.twilio = .opened ∧ truthy s.streamSid then
        { s with twilioOut :=
            s.twilioOut ++ [.media (s.streamSid.getD "") ⟨btoaFn bs⟩] }
      else s
  | .json _ => s
  | .malformed => s

/-- Environment events for one `part_001` call. -/
inductive P1Ev where
  | twilioOpen
  | fetchResult (ok : Bool)
  | elevenOpen
  | twilioMsg (m : TwilioIn)
  | elevenMsg (m : P1ElevenIn)
  | twilioClosed
  | elevenClosed
deriving DecidableEq

/-- One environment event of a `part_001` call.  On `elevenOpen`
(lines 67-94) the handler sends the session configuration, sets
readiness, and drains `audioBuffer` front-first (`shift`) as binary
frames, leaving the buffer empty. -/
def p1Step (s : P1) : P1Ev → P1
  | .twilioOpen =>
      if s.twilio = .connecting then
        { s with twilio := .opened, fetchPending := true }
      else s
  | .fetchResult ok =>
      if s.fetchPending then
        let s1 := { s with fetchPending := false }
        if ok then { s1 with eleven := some .connecting }
        else p1CloseTwilioH 4 s1
      else s
  | .elevenOpen =>
      if s.eleven = some .connecting then
        { s with eleven := some .opened
                 ready := true
                 elevenOut := s.elevenOut ++ [.initMsg] ++
                   s.audioBuffer.map P1ElevenOut.bytes
                 audioBuffer := [] }
      else s
  | .twilioMsg m =>
      if s.twilio = .opened then p1TwilioOnmessage s m else s
  | .elevenMsg m =>
      if s.eleven = some .opened then p1ElevenOnmessage s m else s
  | .twilioClosed =>
      if s.twilio = .closed then s
      else p1TwilioOncloseH 4 { s with twilio := .closed }
  | .elevenClosed =>
      if s.eleven = some .connecting ∨ s.eleven = some .opened then
        p1ElevenOncloseH 4 { s with eleven := some .closed }
      else s

/-- A run of a `part_001` call over a list of environment events. -/
def p1Run (s : P1) (evs : List P1Ev) : P1 :=
  evs.foldl p1Step s

/-! ### `src/unnamed/part_000`: the string-buffer binary variant -/

/-- Messages `part_000` sends to the agent socket: the one-time session
configuration, and raw binary audio chunks (decoded bytes). -/
inductive P0ElevenOut where
  | initMsg
  | bytes (b : List Nat)
deriving DecidableEq

/-- Inbound agent-leg data in `part_000`: a JSON text message — parsed,
its `type` logged, and otherwise ignored whatever event it carries
(pings and interruptions included) — binary audio bytes, or unparseable
text. -/
inductive P0ElevenIn where
  | text (m : ElevenIn)
  | binary (b : List Nat)
  | malformed
deriving DecidableEq

/-- Per-call state of `src/unnamed/part_000`: as `P1`, except that the
`audioBuffer: string[]` holds the caller payloads still base64-encoded. -/
structure P0 where
  twilio : SockSt
  eleven : Option SockSt
  streamSid : Option String
  ready : Bool
  fetchPending : Bool
  audioBuffer : List String
  twilioOut : List TwilioOut
  elevenOut : List P0ElevenOut
  twilioCloses : Nat
  elevenCloses : Nat
deriving DecidableEq

/-- Initial `part_000` state at upgrade time. -/
def P0.init : P0 :=
  { twilio := .connecting
    eleven := none
    streamSid := none
    ready := false
    fetchPending := false
    audioBuffer := []
    twilioOut := []
    elevenOut := []
    twilioCloses := 0
    elevenCloses := 0 }

mutual

/-- Body of `part_000`'s `twilioSocket.onclose` (lines 164-167):
`elevenlabsSocket?.close()` with no OPEN guard. -/
def p0TwilioOncloseH : Nat → P0 → P0
  | 0, s => s
  | n + 1, s => p0CloseElevenH n s

/-- Body of `part_000`'s `elevenlabsSocket.onclose` (lines 127-130). -/
def p0ElevenOncloseH : Nat → P0 → P0
  | 0, s => s
  | n + 1, s =>
      if s.twilio = .opened then p0CloseTwilioH n s else s

/-- `elevenlabsSocket?.close()` in `part_000`. -/
def p0CloseElevenH : Nat → P0 → P0
  | 0, s => s
  | n + 1, s =>
      if s.eleven = some .connecting ∨ s.eleven = some .opened then
        p0ElevenOncloseH n
          { s with eleven := some .closed, elevenCloses := s.elevenCloses + 1 }
      else s

/-- `twilioSocket.close()` in `part_000`. -/
def p0CloseTwilioH : Nat → P0 → P0
  | 0, s => s
  | n + 1, s =>
      if s.twilio = .closed then s
      else
        p0TwilioOncloseH n
          { s with twilio := .closed, twilioCloses := s.twilioCloses + 1 }

end

/-- Body of `part_000`'s `twilioSocket.onmessage` (lines 138-161).  A
`media` event needs a truthy payload; the payload is `atob`-decoded
first (line 147; a throw is caught and the message dropped), the bytes
are sent as a binary frame when the agent leg is ready and open, and
otherwise the still-encoded payload string is buffered.  `stop` calls
`elevenlabsSocket?.close()` with no OPEN guard. -/
def p0TwilioOnmessage (s : P0) : TwilioIn → P0
  | .start sid => { s with streamSid := some sid }
  | .media payload =>
      if payload = "" then s
      else
        match atobStr payload with
        | none => s
        | some bs =>
            if s.ready ∧ s.eleven = some .opened then
              { s with elevenOut := s.elevenOut ++ [.bytes bs] }
            else
              { s with audioBuffer := s.audioBuffer ++ [payload] }
  | .stop => p0CloseElevenH 4 s
  | .malformed => s

/-- Body of `part_000`'s `elevenlabsSocket.onmessage` (lines 93-120):
a string message is parsed and its type logged — nothing else, so pings
are never answered; binary agent audio is re-encoded with `btoa` and
sent to the caller as a media frame when the caller socket is OPEN and
`streamSid` is truthy. -/
def p0ElevenOnmessage (s : P0) : P0ElevenIn → P0
  | .text _ => s
  | .binary bs =>
      if s.twilio = .opened ∧ truthy s.streamSid then
        { s with twilioOut :=
            s.twilioOut ++ [.media (s.streamSid.getD "") ⟨btoaFn bs⟩] }
      else s
  | .malformed => s

/-- Environment events for one `part_000` call; `elevenError` is the
agent socket's `onerror` (lines 122-125), which closes the caller
socket. -/
inductive P0Ev where
  | twilioOpen
  | fetchResult (ok : Bool)
  | elevenOpen
  | twilioMsg (m : TwilioIn)
  | elevenMsg (m : P0ElevenIn)
  | elevenError
  | twilioClosed
  | elevenClosed
deriving DecidableEq

/-- One environment event of a `part_000` call.  On `elevenOpen`
(lines 61-91) the handler sets readiness, sends the session
configuration, and flushes the buffered payloads front-first as binary
frames, decoding each with `atob` (every buffered payload already
decoded successfully on arrival, so the decode cannot throw here),
leaving the buffer empty. -/
def p0Step (s : P0) : P0Ev → P0
  | .twilioOpen =>
      if s.twilio = .connecting then
        { s with twilio := .opened, fetchPending := true }
      else s
  | .fetchResult ok =>
      if s.fetchPending then
        let s1 := { s with fetchPending := false }
        if ok then { s1 with eleven := some .connecting }
        else p0CloseTwilioH 4 s1
      else s
  | .elevenOpen =>
      if s.eleven = some .connecting then
        { s with eleven := some .opened
                 ready := true
                 elevenOut := s.elevenOut ++ [.initMsg] ++
                   (s.audioBuffer.filterMap atobStr).map P0ElevenOut.bytes
                 audioBuffer := [] }
      else s
  | .twilioMsg m =>
      if s.twilio = .opened then p0TwilioOnmessage s m else s
  | .elevenMsg m =>
      if s.eleven = some .opened then p0ElevenOnmessage s m else s
  | .elevenError => p0CloseTwilioH 4 s
  | .twilioClosed =>
      if s.twilio = .closed then s
      else p0TwilioOncloseH 4 { s with twilio := .closed }
  | .elevenClosed =>
      if s.eleven = some .connecting ∨ s.eleven = some .opened then
        p0ElevenOncloseH 4 { s with eleven := some .closed }
      else s

/-- A run of a `part_000` call over a list of environment events. -/
def p0Run (s : P0) (evs : List P0Ev) : P0 :=
  evs.foldl p0Step s

/-! ### Observation helpers and invariants used by the statements/proofs -/

/-- The `streamSid` values carried by the caller `start` events of an
event list, in order. -/
def evStartSids (evs : List Ev) : List String :=
  evs.filterMap fun e =>
    match e with
    | .twilioMsg (.start sid) => some sid
    | _ => none

/-- Two `MB` states agree on everything except the socket phases and
close counters (the only fields the close cascade touches). -/
def MB.coreEq (a b : MB) : Prop :=
  a.streamSid = b.streamSid ∧ a.ready = b.ready ∧
  a.fetchPending = b.fetchPending ∧ a.twilioOut = b.twilioOut ∧
  a.elevenOut = b.elevenOut

/-- Inductive invariant of a `media-bridge.ts` run: each socket is
effectively closed at most once (and once its counter is positive the
socket is closed), the agent socket does not exist before the caller
socket has opened, and no agent socket exists while the signed-URL
fetch is in flight. -/
def MBInv (s : MB) : Prop :=
  s.elevenCloses ≤ 1 ∧ (1 ≤ s.elevenCloses → s.eleven = some .closed) ∧
  s.twilioCloses ≤ 1 ∧ (1 ≤ s.twilioCloses → s.twilio = .closed) ∧
  (s.twilio = .connecting → s.eleven = none ∧ s.fetchPending = false) ∧
  (s.fetchPending = true → s.eleven = none)

/-- Every outbound caller-leg frame of `s` carries a non-blank sid drawn
from `sids`, and the recorded (non-blank) `streamSid`, if any, is drawn
from `sids`. -/
def sidRecorded (sids : List String) (s : MB) : Prop :=
  (∀ f ∈ s.twilioOut, f.sid ≠ "" ∧ f.sid ∈ sids) ∧
  (∀ x, s.streamSid = some x → x ≠ "" → x ∈ sids)

/-! ### Helper lemmas: base64 -/

theorem decChar_encChar : ∀ n, n < 64 → decChar (encChar n) = some n := by decide

theorem encChar_ne_pad : ∀ n, n < 64 → encChar n ≠ '=' := by decide

/-- Decoding an encoded byte list recovers it exactly. -/
theorem atob_btoa : ∀ bs : List Nat, (∀ x ∈ bs, x < 256) → atobFn (btoaFn bs) = some bs
  | [], _ => rfl
  | [a], h => by
      have ha : a < 256 := h a (by simp)
      have e1 := decChar_encChar (a / 4) (by omega)
      have e2 := decChar_encChar (a % 4 * 16) (by omega)
      simp [btoaFn, atobFn, e1, e2]
      omega
  | [a, b], h => by
      have ha : a < 256 := h a (by simp)
      have hb : b < 256 := h b (by simp)
      have e1 := decChar_encChar (a / 4) (by omega)
      have e2 := decChar_encChar (a % 4 * 16 + b / 16) (by omega)
      have e3 := decChar_encChar (b % 16 * 4) (by omega)
      have n3 := encChar_ne_pad (b % 16 * 4) (by omega)
      simp [btoaFn, atobFn, e1, e2, e3, n3]
      omega
  | a :: b :: c :: rest, h => by
      have ih := atob_btoa rest (fun x hx => h x (by simp [hx]))
      have ha : a < 256 := h a (by simp)
      have hb : b < 256 := h b (by simp)
      have hc : c < 256 := h c (by simp)
      have e1 := decChar_encChar (a / 4) (by omega)
      have e2 := decChar_encChar (a % 4 * 16 + b / 16) (by omega)
      have e3 := decChar_encChar (b % 16 * 4 + c / 64) (by omega)
      have e4 := decChar_encChar (c % 64) (by omega)
      have n3 := encChar_ne_pad (b % 16 * 4 + c / 64) (by omega)
      have n4 := encChar_ne_pad (c % 64) (by omega)
      simp [btoaFn, atobFn, e1, e2, e3, e4, n3, n4, ih]
      omega

/-! ### Helper lemmas: the close cascade of `media-bridge.ts` -/

theorem MB.coreEq_refl (s : MB) : MB.coreEq s s := by
  simp [MB.coreEq]

theorem MB.coreEq_trans {a b c : MB} (h1 : MB.coreEq a b) (h2 : MB.coreEq b c) :
    MB.coreEq a c := by
  obtain ⟨x1, x2, x3, x4, x5⟩ := h1
  obtain ⟨y1, y2, y3, y4, y5⟩ := h2
  exact ⟨x1.trans y1, x2.trans y2, x3.trans y3, x4.trans y4, x5.trans y5⟩

/-- The close cascade never changes `streamSid`, readiness, the fetch
flag, or either output list. -/
theorem closeH_coreEq (n : Nat) : ∀ s : MB,
    MB.coreEq (twilioOncloseH n s) s ∧ MB.coreEq (elevenOncloseH n s) s ∧
    MB.coreEq (closeElevenH n s) s ∧ MB.coreEq (closeTwilioH n s) s := by
  induction n with
  | zero =>
      intro s
      exact ⟨MB.coreEq_refl s, MB.coreEq_refl s, MB.coreEq_refl s, MB.coreEq_refl s⟩
  | succ n ih =>
      intro s
      refine ⟨?_, ?_, ?_, ?_⟩
      · rw [twilioOncloseH]
        split
        · exact (ih s).2.2.1
        · exact MB.coreEq_refl s
      · rw [elevenOncloseH]
        split
        · exact (ih s).2.2.2
        · exact MB.coreEq_refl s
      · rw [closeElevenH]
        split
        · exact MB.coreEq_trans ((ih _).2.1) (by simp [MB.coreEq])
        · exact MB.coreEq_refl s
      · rw [closeTwilioH]
        split
        · exact MB.coreEq_refl s
        · exact MB.coreEq_trans ((ih _).1) (by simp [MB.coreEq])
theorem closeH_inv (n : Nat) : ∀ s : MB, MBInv s →
    MBInv (twilioOncloseH n s) ∧ MBInv (elevenOncloseH n s) ∧
    MBInv (closeElevenH n s) ∧ MBInv (closeTwilioH n s) := by
  induction n with
  | zero =>
      intro s h
      exact ⟨h, h, h, h⟩
  | succ n ih =>
      intro s h
      obtain ⟨h1, h2, h3, h4, h5, h6⟩ := h
      refine ⟨?_, ?_, ?_, ?_⟩
      · rw [twilioOncloseH]
        split
        · exact (ih s ⟨h1, h2, h3, h4, h5, h6⟩).2.2.1
        · exact ⟨h1, h2, h3, h4, h5, h6⟩
      · rw [elevenOncloseH]
        split
        · exact (ih s ⟨h1, h2, h3, h4, h5, h6⟩).2.2.2
        · exact ⟨h1, h2, h3, h4, h5, h6⟩
      · rw [closeElevenH]
        split
        · rename_i g
          have hz : s.elevenCloses = 0 := by
            rcases Nat.eq_zero_or_pos s.elevenCloses with h0 | h0
            · exact h0
            · have hc := h2 h0
              rcases g with g | g <;> rw [g] at hc <;> simp at hc
          refine (ih _ ?_).2.1
          refine ⟨by simp; omega, fun _ => rfl, h3, h4, ?_, ?_⟩
          · intro ht
            have := (h5 ht).1
            rcases g with g | g <;> rw [g] at this <;> simp at this
          · intro hp
            have := h6 hp
            rcases g with g | g <;> rw [g] at this <;> simp at this
        · exact ⟨h1, h2, h3, h4, h5, h6⟩
      · rw [closeTwilioH]
        split
        · exact ⟨h1, h2, h3, h4, h5, h6⟩
        · rename_i g
          have hz : s.twilioCloses = 0 := by
            rcases Nat.eq_zero_or_pos s.twilioCloses with h0 | h0
            · exact h0
            · exact absurd (h4 h0) g
          refine (ih _ ?_).1
          exact ⟨h1, h2, by simp; omega, fun _ => rfl, by simp, h6⟩
theorem step_inv (s : MB) (e : Ev) (h : MBInv s) : MBInv (step s e) := by
  obtain ⟨h1, h2, h3, h4, h5, h6⟩ := h
  cases e with
  | twilioOpen =>
      rw [step]
      split
      · rename_i g
        refine ⟨h1, h2, h3, ?_, by simp, fun _ => (h5 g).1⟩
        intro hc
        have := h4 hc
        rw [g] at this
        simp at this
      · exact ⟨h1, h2, h3, h4, h5, h6⟩
  | fetchResult ok =>
      rw [step]
      split
      · rename_i g
        cases ok with
        | true =>
            have hz : s.elevenCloses = 0 := by
              rcases Nat.eq_zero_or_pos s.elevenCloses with h0 | h0
              · exact h0
              · have := h2 h0
                rw [h6 g] at this
                simp at this
            refine ⟨by simp; omega, by simp; omega, h3, h4, ?_, by simp⟩
            intro ht
            exact absurd g (by simp [(h5 ht).2])
        | false =>
            simp only [Bool.false_eq_true, if_false]
            refine (closeH_inv 4 _ ?_).2.2.2
            exact ⟨h1, h2, h3, h4, fun ht => ⟨(h5 ht).1, rfl⟩, by simp⟩
      · exact ⟨h1, h2, h3, h4, h5, h6⟩
  | elevenOpen =>
      rw [step]
      split
      · rename_i g
        have hz : s.elevenCloses = 0 := by
          rcases Nat.eq_zero_or_pos s.elevenCloses with h0 | h0
          · exact h0
          · have := h2 h0
            rw [g] at this
            simp at this
        refine ⟨by simp; omega, by simp; omega, h3, h4, ?_, ?_⟩
        · intro ht
          have := (h5 ht).1
          rw [g] at this
          simp at this
        · intro hp
          have := h6 hp
          rw [g] at this
          simp at this
      · exact ⟨h1, h2, h3, h4, h5, h6⟩
  | twilioMsg m =>
      rw [step]
      split
      · cases m with
        | start sid => exact ⟨h1, h2, h3, h4, h5, h6⟩
        | media p =>
            rw [twilioOnmessage]
            split
            · exact ⟨h1, h2, h3, h4, h5, h6⟩
            · exact ⟨h1, h2, h3, h4, h5, h6⟩
        | stop =>
            rw [twilioOnmessage]
            split
            · exact (closeH_inv 4 s ⟨h1, h2, h3, h4, h5, h6⟩).2.2.1
            · exact ⟨h1, h2, h3, h4, h5, h6⟩
        | malformed => exact ⟨h1, h2, h3, h4, h5, h6⟩
      · exact ⟨h1, h2, h3, h4, h5, h6⟩
  | elevenMsg m =>
      rw [step]
      split
      · cases m with
        | audio c a =>
            rw [elevenOnmessage]
            split
            · dsimp only
              split
              · exact ⟨h1, h2, h3, h4, h5, h6⟩
              · exact ⟨h1, h2, h3, h4, h5, h6⟩
            · exact ⟨h1, h2, h3, h4, h5, h6⟩
        | interruption =>
            rw [elevenOnmessage]
            split
            · exact ⟨h1, h2, h3, h4, h5, h6⟩
            · exact ⟨h1, h2, h3, h4, h5, h6⟩
        | ping eid =>
            rw [elevenOnmessage]
            split
            · exact ⟨h1, h2, h3, h4, h5, h6⟩
            · exact ⟨h1, h2, h3, h4, h5, h6⟩
        | metadata => exact ⟨h1, h2, h3, h4, h5, h6⟩
        | other => exact ⟨h1, h2, h3, h4, h5, h6⟩
        | malformed => exact ⟨h1, h2, h3, h4, h5, h6⟩
      · exact ⟨h1, h2, h3, h4, h5, h6⟩
  | twilioClosed =>
      rw [step]
      split
      · exact ⟨h1, h2, h3, h4, h5, h6⟩
      · refine (closeH_inv 4 _ ?_).1
        exact ⟨h1, h2, h3, fun _ => rfl, by simp, h6⟩
  | elevenClosed =>
      rw [step]
      split
      · rename_i g
        refine (closeH_inv 4 _ ?_).2.1
        refine ⟨h1, fun _ => rfl, h3, h4, ?_, ?_⟩
        · intro ht
          have := (h5 ht).1
          rcases g with g | g <;> rw [g] at this <;> simp at this
        · intro hp
          have := h6 hp
          rcases g with g | g <;> rw [g] at this <;> simp at this
      · exact ⟨h1, h2, h3, h4, h5, h6⟩
theorem run_inv (evs : List Ev) : ∀ s : MB, MBInv s → MBInv (run s evs) := by
  induction evs with
  | nil => intro s h; exact h
  | cons e evs ih =>
      intro s h
      exact ih (step s e) (step_inv s e h)

/-- After a failed credential exchange the state is inert: every further
environment event is a no-op. -/
theorem step_dead (s : MB) (e : Ev)
    (ht : s.twilio = .closed) (he : s.eleven = none)
    (hf : s.fetchPending = false) : step s e = s := by
  cases e with
  | twilioOpen => rw [step]; rw [ht]; simp
  | fetchResult ok => rw [step]; rw [hf]; simp
  | elevenOpen => rw [step]; rw [he]; simp
  | twilioMsg m => rw [step]; rw [ht]; simp
  | elevenMsg m => rw [step]; rw [he]; simp
  | twilioClosed => rw [step]; rw [ht]; simp
  | elevenClosed => rw [step]; rw [he]; simp

theorem run_dead (evs : List Ev) : ∀ s : MB,
    s.twilio = .closed → s.eleven = none → s.fetchPending = false →
    run s evs = s := by
  induction evs with
  | nil => intro s _ _ _; rfl
  | cons e evs ih =>
      intro s ht he hf
      have hd := step_dead s e ht he hf
      show run (step s e) evs = s
      rw [hd]
      exact ih s ht he hf

/-- Each event only appends to the caller-bound output. -/
theorem step_twilioOut_mono (s : MB) (e : Ev) :
    ∃ t, (step s e).twilioOut = s.twilioOut ++ t := by
  cases e with
  | twilioOpen => rw [step]; split <;> exact ⟨[], by simp⟩
  | fetchResult ok =>
      rw [step]
      split
      · split
        · exact ⟨[], by simp⟩
        · exact ⟨[], by simpa using ((closeH_coreEq 4 _).2.2.2).2.2.2.1⟩
      · exact ⟨[], by simp⟩
  | elevenOpen => rw [step]; split <;> exact ⟨[], by simp⟩
  | twilioMsg m =>
      rw [step]
      split
      · cases m with
        | start sid => exact ⟨[], by simp [twilioOnmessage]⟩
        | media p => rw [twilioOnmessage]; split <;> exact ⟨[], by simp⟩
        | stop =>
            rw [twilioOnmessage]
            split
            · exact ⟨[], by simpa using ((closeH_coreEq 4 _).2.2.1).2.2.2.1⟩
            · exact ⟨[], by simp⟩
        | malformed => exact ⟨[], by simp [twilioOnmessage]⟩
      · exact ⟨[], by simp⟩
  | elevenMsg m =>
      rw [step]
      split
      · cases m with
        | audio c a =>
            rw [elevenOnmessage]
            split
            · dsimp only
              split
              · exact ⟨_, rfl⟩
              · exact ⟨[], by simp⟩
            · exact ⟨[], by simp⟩
        | interruption =>
            rw [elevenOnmessage]
            split
            · exact ⟨_, rfl⟩
            · exact ⟨[], by simp⟩
        | ping eid => rw [elevenOnmessage]; split <;> exact ⟨[], by simp⟩
        | metadata => exact ⟨[], by simp [elevenOnmessage]⟩
        | other => exact ⟨[], by simp [elevenOnmessage]⟩
        | malformed => exact ⟨[], by simp [elevenOnmessage]⟩
      · exact ⟨[], by simp⟩
  | twilioClosed =>
      rw [step]
      split
      · exact ⟨[], by simp⟩
      · exact ⟨[], by simpa using ((closeH_coreEq 4 _).1).2.2.2.1⟩
  | elevenClosed =>
      rw [step]
      split
      · exact ⟨[], by simpa using ((closeH_coreEq 4 _).2.1).2.2.2.1⟩
      · exact ⟨[], by simp⟩

theorem run_twilioOut_mono (evs : List Ev) : ∀ s : MB,
    ∃ t, (run s evs).twilioOut = s.twilioOut ++ t := by
  induction evs with
  | nil => intro s; exact ⟨[], by simp [run]⟩
  | cons e evs ih =>
      intro s
      obtain ⟨t1, h1⟩ := step_twilioOut_mono s e
      obtain ⟨t2, h2⟩ := ih (step s e)
      exact ⟨t1 ++ t2, by rw [show run s (e :: evs) = run (step s e) evs from rfl, h2, h1, List.append_assoc]⟩
theorem truthy_iff (o : Option String) :
    truthy o = true ↔ ∃ x, o = some x ∧ x ≠ "" := by
  cases o with
  | none => simp [truthy]
  | some x => simp [truthy, Bool.eq_false_iff, String.isEmpty_iff]

theorem sidRecorded_mono {sids more : List String} {s : MB}
    (h : sidRecorded sids s) : sidRecorded (sids ++ more) s := by
  obtain ⟨hf, hs⟩ := h
  refine ⟨fun f hmem => ⟨(hf f hmem).1, List.mem_append_left _ (hf f hmem).2⟩, ?_⟩
  intro x hx hne
  exact List.mem_append_left _ (hs x hx hne)

theorem sidRecorded_coreEq {a b : MB} {sids : List String}
    (hc : MB.coreEq a b) (h : sidRecorded sids b) : sidRecorded sids a := by
  obtain ⟨c1, _, _, c4, _⟩ := hc
  obtain ⟨hf, hs⟩ := h
  refine ⟨fun f hmem => hf f (c4 ▸ hmem), fun x hx hne => hs x (c1 ▸ hx) hne⟩

theorem sid_step (s : MB) (e : Ev) (sids : List String)
    (h : sidRecorded sids s) :
    sidRecorded (sids ++ evStartSids [e]) (step s e) := by
  obtain ⟨hf, hs⟩ := h
  cases e with
  | twilioOpen =>
      rw [step]
      split <;> exact sidRecorded_mono ⟨hf, hs⟩
  | fetchResult ok =>
      rw [step]
      split
      · split
        · exact sidRecorded_mono ⟨hf, hs⟩
        · exact sidRecorded_mono
            (sidRecorded_coreEq ((closeH_coreEq 4 _).2.2.2) ⟨hf, hs⟩)
      · exact sidRecorded_mono ⟨hf, hs⟩
  | elevenOpen =>
      rw [step]
      split <;> exact sidRecorded_mono ⟨hf, hs⟩
  | twilioMsg m =>
      rw [step]
      split
      · cases m with
        | start sid =>
            rw [twilioOnmessage]
            refine ⟨fun f hmem => ⟨(hf f hmem).1, List.mem_append_left _ (hf f hmem).2⟩, ?_⟩
            intro x hx hne
            simp only [evStartSids, List.filterMap] at *
            simp at hx
            subst hx
            simp [evStartSids]
        | media p =>
            rw [twilioOnmessage]
            split <;> exact sidRecorded_mono ⟨hf, hs⟩
        | stop =>
            rw [twilioOnmessage]
            split
            · exact sidRecorded_mono
                (sidRecorded_coreEq ((closeH_coreEq 4 _).2.2.1) ⟨hf, hs⟩)
            · exact sidRecorded_mono ⟨hf, hs⟩
        | malformed => exact sidRecorded_mono ⟨hf, hs⟩
      · exact sidRecorded_mono ⟨hf, hs⟩
  | elevenMsg m =>
      rw [step]
      split
      · cases m with
        | audio c a =>
            rw [elevenOnmessage]
            split
            · rename_i g
              obtain ⟨x, hx, hne⟩ := (truthy_iff _).1 g.1
              dsimp only
              split
              · refine ⟨?_, fun y hy hyne => List.mem_append_left _ (hs y hy hyne)⟩
                intro f hmem
                simp only [List.mem_append, List.mem_singleton] at hmem
                rcases hmem with hmem | hmem
                · exact ⟨(hf f hmem).1, List.mem_append_left _ (hf f hmem).2⟩
                · subst hmem
                  simp only [TwilioOut.sid, hx, Option.getD_some]
                  exact ⟨hne, List.mem_append_left _ (hs x hx hne)⟩
              · exact sidRecorded_mono ⟨hf, hs⟩
            · exact sidRecorded_mono ⟨hf, hs⟩
        | interruption =>
            rw [elevenOnmessage]
            split
            · rename_i g
              obtain ⟨x, hx, hne⟩ := (truthy_iff _).1 g.1
              refine ⟨?_, fun y hy hyne => List.mem_append_left _ (hs y hy hyne)⟩
              intro f hmem
              simp only [List.mem_append, List.mem_singleton] at hmem
              rcases hmem with hmem | hmem
              · exact ⟨(hf f hmem).1, List.mem_append_left _ (hf f hmem).2⟩
              · subst hmem
                simp only [TwilioOut.sid, hx, Option.getD_some]
                exact ⟨hne, List.mem_append_left _ (hs x hx hne)⟩
            · exact sidRecorded_mono ⟨hf, hs⟩
        | ping eid =>
            rw [elevenOnmessage]
            split <;> exact sidRecorded_mono ⟨hf, hs⟩
        | metadata => exact sidRecorded_mono ⟨hf, hs⟩
        | other => exact sidRecorded_mono ⟨hf, hs⟩
        | malformed => exact sidRecorded_mono ⟨hf, hs⟩
      · exact sidRecorded_mono ⟨hf, hs⟩
  | twilioClosed =>
      rw [step]
      split
      · exact sidRecorded_mono ⟨hf, hs⟩
      · exact sidRecorded_mono
          (sidRecorded_coreEq ((closeH_coreEq 4 _).1) ⟨hf, hs⟩)
  | elevenClosed =>
      rw [step]
      split
      · exact sidRecorded_mono
          (sidRecorded_coreEq ((closeH_coreEq 4 _).2.1) ⟨hf, hs⟩)
      · exact sidRecorded_mono ⟨hf, hs⟩

theorem evStartSids_cons (e : Ev) (evs : List Ev) :
    evStartSids (e :: evs) = evStartSids [e] ++ evStartSids evs := by
  cases e with
  | twilioMsg m => cases m <;> simp [evStartSids]
  | twilioOpen => simp [evStartSids]
  | fetchResult ok => simp [evStartSids]
  | elevenOpen => simp [evStartSids]
  | elevenMsg m => simp [evStartSids]
  | twilioClosed => simp [evStartSids]
  | elevenClosed => simp [evStartSids]

theorem sid_run (evs : List Ev) : ∀ (s : MB) (sids : List String),
    sidRecorded sids s → sidRecorded (sids ++ evStartSids evs) (run s evs) := by
  induction evs with
  | nil => intro s sids h; simpa [evStartSids] using h
  | cons e evs ih =>
      intro s sids h
      have h1 := sid_step s e sids h
      have h2 := ih (step s e) (sids ++ evStartSids [e]) h1
      rw [evStartSids_cons, ← List.append_assoc]
      exact h2
/-- While the agent socket is still connecting, a sequence of caller
`media` events whose payloads decode to `bss` appends exactly `bss`, in
order, to the pending-audio buffer of `part_001`. -/
theorem p1_buffer_accum : ∀ (ps : List String) (bss : List (List Nat)) (s : P1),
    s.twilio = .opened → s.eleven = some .connecting →
    ps.map atobStr = bss.map some →
    p1Run s (ps.map fun p => P1Ev.twilioMsg (TwilioIn.media p)) =
      { s with audioBuffer := s.audioBuffer ++ bss } := by
  intro ps
  induction ps with
  | nil =>
      intro bss s _ _ h
      have hb : bss = [] := by
        cases bss with
        | nil => rfl
        | cons b bs => simp at h
      subst hb
      simp [p1Run]
  | cons p ps ih =>
      intro bss s ht he h
      cases bss with
      | nil => simp at h
      | cons bs bss =>
          simp only [List.map_cons, List.cons.injEq] at h
          obtain ⟨hp, hrest⟩ := h
          show p1Run (p1Step s (P1Ev.twilioMsg (TwilioIn.media p))) _ = _
          have hstep : p1Step s (P1Ev.twilioMsg (TwilioIn.media p)) =
              { s with audioBuffer := s.audioBuffer ++ [bs] } := by
            rw [p1Step]
            rw [if_pos ht]
            rw [p1TwilioOnmessage]
            rw [hp]
            simp [he]
          rw [hstep]
          have := ih bss { s with audioBuffer := s.audioBuffer ++ [bs] } ht he hrest
          rw [this]
          simp

/-! ### Claim theorems -/

/-- C1 (counterexample): in `src/media-bridge.ts` a caller `media` event
that arrives before the agent leg is ready is silently dropped — there
is no pending-audio queue.  In this complete call the payload `"QUJD"`
arrives pre-ready; the agent leg receives only the session-initialization
message, and the unit is never forwarded, contradicting the claim that
every pre-ready audio payload is forwarded after initialization. -/
theorem preReady_media_dropped_main_variant :
    (run MB.init [.twilioOpen, .fetchResult true,
      .twilioMsg (.media "QUJD"), .elevenOpen, .twilioMsg .stop,
      .twilioClosed]).elevenOut = [ElevenOut.initMsg] ∧
    (run MB.init [.twilioOpen, .fetchResult true,
      .twilioMsg (.media "QUJD"), .elevenOpen, .twilioMsg .stop,
      .twilioClosed]).eleven = some .closed := by
  exact ⟨rfl, rfl⟩

/-- C1 (amended): in the buffered variant `src/unnamed/part_001`, every
caller `media` event arriving before the agent leg becomes ready has its
decoded audio forwarded to the agent leg immediately after the
session-initialization message, in exact arrival order, none dropped and
none duplicated (payloads that fail base64 decoding are excluded, as the
handler drops them). -/
theorem preReady_media_forwarded_in_order_p1 (ps : List String)
    (bss : List (List Nat)) (h : ps.map atobStr = bss.map some) :
    (p1Run P1.init ([P1Ev.twilioOpen, P1Ev.fetchResult true] ++
        (ps.map fun p => P1Ev.twilioMsg (TwilioIn.media p)) ++
        [P1Ev.elevenOpen])).elevenOut =
      P1ElevenOut.initMsg :: bss.map P1ElevenOut.bytes := by
  have happ : ∀ (s : P1) (l1 l2 : List P1Ev),
      p1Run s (l1 ++ l2) = p1Run (p1Run s l1) l2 := by
    intro s l1 l2
    simp [p1Run, List.foldl_append]
  have h0 : p1Run P1.init [P1Ev.twilioOpen, P1Ev.fetchResult true] =
      { P1.init with twilio := .opened, eleven := some .connecting } := by
    decide
  rw [happ, happ, h0]
  rw [p1_buffer_accum ps bss _ rfl rfl h]
  simp [p1Run, p1Step, P1.init]

/-- C1 (witness for the amended theorem). -/
theorem preReady_media_forwarded_in_order_p1_witness :
    ["AAAA", "Cg=="].map atobStr = [[0, 0, 0], [10]].map some ∧
    (p1Run P1.init ([P1Ev.twilioOpen, P1Ev.fetchResult true] ++
        (["AAAA", "Cg=="].map fun p => P1Ev.twilioMsg (TwilioIn.media p)) ++
        [P1Ev.elevenOpen])).elevenOut =
      P1ElevenOut.initMsg ::
        [[0, 0, 0], [10]].map P1ElevenOut.bytes :=
  ⟨by decide, preReady_media_forwarded_in_order_p1 ["AAAA", "Cg=="]
    [[0, 0, 0], [10]] (by decide)⟩

/-- C2 (counterexample): if the caller socket closes while the agent
socket is still CONNECTING, the guarded cascade
(`readyState === OPEN`) does nothing, and when the agent socket then
opens it stays open — so a connection of the pair does remain open after
the caller leg closed, contradicting the claim's second half. -/
theorem caller_close_leaves_connecting_agent_open :
    (run MB.init [.twilioOpen, .fetchResult true, .twilioClosed,
      .elevenOpen]).twilio = .closed ∧
    (run MB.init [.twilioOpen, .fetchResult true, .twilioClosed,
      .elevenOpen]).eleven = some .opened := by
  exact ⟨rfl, rfl⟩

/-- C2 (amended): over any run, each socket is effectively closed at
most once (idempotent cascade); and whenever a close event arrives while
both legs are OPEN, the cascade closes the peer exactly once and leaves
no connection of the pair open.  (A peer still CONNECTING, or not yet
created, is not closed by the cascade — see the counterexample.) -/
theorem close_cascade_amended :
    (∀ evs : List Ev, (run MB.init evs).elevenCloses ≤ 1 ∧
      (run MB.init evs).twilioCloses ≤ 1) ∧
    (∀ s : MB, s.twilio = .opened → s.eleven = some .opened →
      (step s .twilioClosed).twilio = .closed ∧
      (step s .twilioClosed).eleven = some .closed ∧
      (step s .twilioClosed).elevenCloses = s.elevenCloses + 1) ∧
    (∀ s : MB, s.twilio = .opened → s.eleven = some .opened →
      (step s .elevenClosed).twilio = .closed ∧
      (step s .elevenClosed).eleven = some .closed ∧
      (step s .elevenClosed).twilioCloses = s.twilioCloses + 1) := by
  refine ⟨?_, ?_, ?_⟩
  · intro evs
    have h0 : MBInv MB.init := by
      refine ⟨by decide, by decide, by decide, by decide, by decide, by decide⟩
    have h := run_inv evs MB.init h0
    exact ⟨h.1, h.2.2.1⟩
  · intro s ht he
    rw [step]
    rw [if_neg (by rw [ht]; simp)]
    simp [twilioOncloseH, closeElevenH, elevenOncloseH, closeTwilioH, he]
  · intro s ht he
    rw [step]
    rw [if_pos (by rw [he]; simp)]
    simp [twilioOncloseH, closeElevenH, elevenOncloseH, closeTwilioH, ht]

/-- C2 (witness). -/
theorem close_cascade_amended_witness :
    ((run MB.init [Ev.twilioOpen]).elevenCloses ≤ 1 ∧
      (run MB.init [Ev.twilioOpen]).twilioCloses ≤ 1) ∧
    ((run MB.init [.twilioOpen, .fetchResult true, .elevenOpen]).twilio
        = .opened ∧
      (run MB.init [.twilioOpen, .fetchResult true, .elevenOpen]).eleven
        = some .opened ∧
      (step (run MB.init [.twilioOpen, .fetchResult true, .elevenOpen])
        .twilioClosed).twilio = .closed ∧
      (step (run MB.init [.twilioOpen, .fetchResult true, .elevenOpen])
        .twilioClosed).eleven = some .closed) := by
  refine ⟨close_cascade_amended.1 [Ev.twilioOpen], rfl, rfl, ?_, ?_⟩
  · exact (close_cascade_amended.2.1 _ rfl rfl).1
  · exact (close_cascade_amended.2.1 _ rfl rfl).2.1

/-- C3: a non-success credential-exchange response closes the caller
socket (exactly once), the agent socket is never created and never sent
anything, and the bridge never reaches the ready state, whatever happens
afterwards. -/
theorem failed_fetch_closes_caller_never_ready (rest : List Ev) :
    (run MB.init ([.twilioOpen, .fetchResult false] ++ rest)).twilio
        = .closed ∧
    (run MB.init ([.twilioOpen, .fetchResult false] ++ rest)).eleven
        = none ∧
    (run MB.init ([.twilioOpen, .fetchResult false] ++ rest)).ready
        = false ∧
    (run MB.init ([.twilioOpen, .fetchResult false] ++ rest)).elevenOut
        = [] ∧
    (run MB.init ([.twilioOpen, .fetchResult false] ++ rest)).twilioCloses
        = 1 := by
  have h1 : run MB.init ([.twilioOpen, .fetchResult false] ++ rest) =
      run (run MB.init [.twilioOpen, .fetchResult false]) rest := by
    simp [run, List.foldl_append]
  have h0 : run MB.init [.twilioOpen, .fetchResult false] =
      { MB.init with twilio := .closed, twilioCloses := 1 } := by
    decide
  rw [h1, h0, run_dead rest _ rfl rfl rfl]
  exact ⟨rfl, rfl, rfl, rfl, rfl⟩

/-- C4: every frame the bridge emits to the caller carries a non-blank
`streamSid` recorded from a caller `start` event of the run; and when
the run contains no `start` event, no caller-bound frame is emitted at
all. -/
theorem outbound_frames_carry_recorded_sid (evs : List Ev) :
    (∀ f ∈ (run MB.init evs).twilioOut,
      f.sid ≠ "" ∧ f.sid ∈ evStartSids evs) ∧
    (evStartSids evs = [] → (run MB.init evs).twilioOut = []) := by
  have h0 : sidRecorded [] MB.init := by
    constructor
    · intro f hf
      simp [MB.init] at hf
    · intro x hx
      simp [MB.init] at hx
  have h := sid_run evs MB.init [] h0
  rw [List.nil_append] at h
  refine ⟨h.1, ?_⟩
  intro hnil
  rw [List.eq_nil_iff_forall_not_mem]
  intro f hf
  have := (h.1 f hf).2
  rw [hnil] at this
  simp at this

/-- C4 (witness). -/
theorem outbound_frames_carry_recorded_sid_witness :
    TwilioOut.media "SID1" "BBBB" ∈
      (run MB.init [.twilioOpen, .twilioMsg (.start "SID1"),
        .fetchResult true, .elevenOpen,
        .elevenMsg (.audio (some "BBBB") none)]).twilioOut ∧
    (TwilioOut.media "SID1" "BBBB").sid ≠ "" ∧
    (TwilioOut.media "SID1" "BBBB").sid ∈
      evStartSids [.twilioOpen, .twilioMsg (.start "SID1"),
        .fetchResult true, .elevenOpen,
        .elevenMsg (.audio (some "BBBB") none)] :=
  ⟨by decide,
    (outbound_frames_carry_recorded_sid _).1 _ (by decide)⟩

/-- C5 (counterexample): a second `start` event overwrites the session
identifier — the assignment `streamSid = message.start.streamSid` is
unconditional — contradicting the claim that it is never overwritten. -/
theorem second_start_overwrites_sid :
    (run MB.init [.twilioOpen, .twilioMsg (.start "SID1"),
      .twilioMsg (.start "SID2")]).streamSid = some "SID2" ∧
    (run MB.init [.twilioOpen, .twilioMsg (.start "SID1"),
      .twilioMsg (.start "SID2")]).streamSid ≠ some "SID1" := by
  exact ⟨rfl, by decide⟩

/-- C5 (amended): the session identifier always holds the `streamSid`
of the most recent `start` event processed while the caller socket is
open — each such `start` overwrites it, and no other event ever changes
it (so it is never overwritten only when at most one `start` arrives). -/
theorem streamSid_tracks_latest_start (s : MB) (e : Ev) :
    (step s e).streamSid =
      match e with
      | .twilioMsg (.start sid) =>
          if s.twilio = .opened then some sid else s.streamSid
      | _ => s.streamSid := by
  cases e with
  | twilioOpen => rw [step]; split <;> rfl
  | fetchResult ok =>
      rw [step]
      split
      · split
        · rfl
        · exact ((closeH_coreEq 4 _).2.2.2).1
      · rfl
  | elevenOpen => rw [step]; split <;> rfl
  | twilioMsg m =>
      cases m with
      | start sid =>
          rw [step]
          split
          · rfl
          · rfl
      | media p =>
          rw [step]
          split
          · rw [twilioOnmessage]; split <;> rfl
          · rfl
      | stop =>
          rw [step]
          split
          · rw [twilioOnmessage]
            split
            · exact ((closeH_coreEq 4 _).2.2.1).1
            · rfl
          · rfl
      | malformed => rw [step]; split <;> rfl
  | elevenMsg m =>
      cases m with
      | audio c a =>
          rw [step]
          split
          · rw [elevenOnmessage]
            split
            · dsimp only
              split <;> rfl
            · rfl
          · rfl
      | interruption =>
          rw [step]
          split
          · rw [elevenOnmessage]; split <;> rfl
          · rfl
      | ping eid =>
          rw [step]
          split
          · rw [elevenOnmessage]; split <;> rfl
          · rfl
      | metadata => rw [step]; split <;> rfl
      | other => rw [step]; split <;> rfl
      | malformed => rw [step]; split <;> rfl
  | twilioClosed =>
      rw [step]
      split
      · rfl
      · exact ((closeH_coreEq 4 _).1).1
  | elevenClosed =>
      rw [step]
      split
      · exact ((closeH_coreEq 4 _).2.1).1
      · rfl

/-- C6 (counterexample): in the binary variants the downstream
`onmessage` handlers treat every JSON text message — a `ping` carrying
an event identifier included — as log-only.  Here a ping carrying
identifier `"evt1"`, delivered on the open agent socket of a `part_000`
call and of a `part_001` call, changes nothing: in particular the
agent-bound output still holds only the session configuration, so no
`pong` reply is ever sent, contradicting the claim that every such ping
produces exactly one pong. -/
theorem ping_ignored_in_binary_variants :
    p0Run P0.init [.twilioOpen, .fetchResult true, .elevenOpen,
        .elevenMsg (.text (.ping (some "evt1")))] =
      p0Run P0.init [.twilioOpen, .fetchResult true, .elevenOpen] ∧
    (p0Run P0.init [.twilioOpen, .fetchResult true, .elevenOpen,
        .elevenMsg (.text (.ping (some "evt1")))]).elevenOut
      = [P0ElevenOut.initMsg] ∧
    p1Run P1.init [.twilioOpen, .fetchResult true, .elevenOpen,
        .elevenMsg (.json (.ping (some "evt1")))] =
      p1Run P1.init [.twilioOpen, .fetchResult true, .elevenOpen] ∧
    (p1Run P1.init [.twilioOpen, .fetchResult true, .elevenOpen,
        .elevenMsg (.json (.ping (some "evt1")))]).elevenOut
      = [P1ElevenOut.initMsg] := by
  exact ⟨rfl, rfl, rfl, rfl⟩

/-- C6 (amended): in `src/media-bridge.ts`, a downstream `ping` carrying
a non-empty event identifier `x`, delivered on the open agent socket,
makes the bridge send exactly one `pong` carrying the same `x` to the
agent leg, and nothing to the caller leg.  (In the binary variants
`part_000` and `part_001` pings are only logged and never answered —
see the counterexample.) -/
theorem ping_gets_exactly_one_pong (s : MB) (x : String)
    (he : s.eleven = some .opened) (hx : x ≠ "") :
    (step s (.elevenMsg (.ping (some x)))).elevenOut
        = s.elevenOut ++ [.pong x] ∧
    (step s (.elevenMsg (.ping (some x)))).twilioOut = s.twilioOut := by
  rw [step]
  rw [if_pos he]
  rw [elevenOnmessage]
  rw [if_pos (by simp [truthy, Bool.eq_false_iff, String.isEmpty_iff, hx])]
  simp

/-- C6 (witness). -/
theorem ping_gets_exactly_one_pong_witness :
    (run MB.init [.twilioOpen, .fetchResult true, .elevenOpen]).eleven
        = some .opened ∧
    "evt1" ≠ "" ∧
    (step (run MB.init [.twilioOpen, .fetchResult true, .elevenOpen])
        (.elevenMsg (.ping (some "evt1")))).elevenOut
      = (run MB.init [.twilioOpen, .fetchResult true,
          .elevenOpen]).elevenOut ++ [.pong "evt1"] :=
  ⟨by decide, by decide,
    (ping_gets_exactly_one_pong _ "evt1" (by decide) (by decide)).1⟩

/-- C7 (counterexample): two refutations of the universal claim.  In
`src/media-bridge.ts` a downstream `interruption` processed while the
session identifier is still unset emits nothing at all — the clear
frame is guarded by `streamSid`.  And in `part_001` an `interruption`
is ignored outright: JSON text messages are only logged, so even with
the identifier set and the caller socket open the state is unchanged
and no `clear` frame exists in that variant at all. -/
theorem interruption_unanswered_cases :
    (run MB.init [.twilioOpen, .fetchResult true, .elevenOpen]).twilio
        = .opened ∧
    (run MB.init [.twilioOpen, .fetchResult true, .elevenOpen]).eleven
        = some .opened ∧
    (run MB.init [.twilioOpen, .fetchResult true, .elevenOpen,
      .elevenMsg .interruption]).twilioOut = [] ∧
    (p1Run P1.init [.twilioOpen, .fetchResult true, .elevenOpen,
        .twilioMsg (.start "SID1")]).streamSid = some "SID1" ∧
    p1Run P1.init [.twilioOpen, .fetchResult true, .elevenOpen,
        .twilioMsg (.start "SID1"), .elevenMsg (.json .interruption)] =
      p1Run P1.init [.twilioOpen, .fetchResult true, .elevenOpen,
        .twilioMsg (.start "SID1")] := by
  exact ⟨rfl, rfl, rfl, rfl, rfl⟩

/-- C7 (amended): in `src/media-bridge.ts`, a downstream `interruption`
processed while the session identifier is set (non-blank) and the
caller socket is open emits exactly one `clear` control frame — a frame
type that carries no audio payload — and that frame precedes every
caller-bound frame emitted by any later event; when the identifier is
unset, nothing is emitted.  (In the binary variants `part_000` and
`part_001` interruption events are only logged and no clear frame is
ever emitted — see the counterexample.) -/
theorem interruption_emits_one_clear (s : MB) (x : String)
    (he : s.eleven = some .opened) (ht : s.twilio = .opened)
    (hx : s.streamSid = some x) (hne : x ≠ "") :
    (step s (.elevenMsg .interruption)).twilioOut
        = s.twilioOut ++ [.clear x] ∧
    (∀ evs : List Ev, ∃ t,
      (run (step s (.elevenMsg .interruption)) evs).twilioOut
        = s.twilioOut ++ [.clear x] ++ t) := by
  have h1 : (step s (.elevenMsg .interruption)).twilioOut
      = s.twilioOut ++ [.clear x] := by
    rw [step]
    rw [if_pos he]
    rw [elevenOnmessage]
    rw [if_pos (by simp [truthy, Bool.eq_false_iff, String.isEmpty_iff, hx, hne, ht])]
    simp [hx]
  refine ⟨h1, ?_⟩
  intro evs
  obtain ⟨t, hmono⟩ := run_twilioOut_mono evs (step s (.elevenMsg .interruption))
  exact ⟨t, by rw [hmono, h1]⟩

/-- C7 (witness). -/
theorem interruption_emits_one_clear_witness :
    (run MB.init [.twilioOpen, .twilioMsg (.start "SID1"),
        .fetchResult true, .elevenOpen]).eleven = some .opened ∧
    (run MB.init [.twilioOpen, .twilioMsg (.start "SID1"),
        .fetchResult true, .elevenOpen]).streamSid = some "SID1" ∧
    (step (run MB.init [.twilioOpen, .twilioMsg (.start "SID1"),
        .fetchResult true, .elevenOpen])
      (.elevenMsg .interruption)).twilioOut
      = (run MB.init [.twilioOpen, .twilioMsg (.start "SID1"),
          .fetchResult true, .elevenOpen]).twilioOut
        ++ [.clear "SID1"] :=
  ⟨by decide, by decide,
    (interruption_emits_one_clear _ "SID1" (by decide) (by decide)
      (by decide) (by decide)).1⟩

/-- C8: decoding an encoded byte sequence recovers it exactly, both for
the caller-native base64 payload text (`btoa` then `atob` on the raw
character list) and for the agent-native base64-wrapped form, where the
same base64 text travels as a JSON string field (`atobStr` on the
`String`). -/
theorem base64_roundtrip_codec (bs : List Nat) (h : ∀ x ∈ bs, x < 256) :
    atobFn (btoaFn bs) = some bs ∧ atobStr ⟨btoaFn bs⟩ = some bs := by
  have hr := atob_btoa bs h
  exact ⟨hr, hr⟩

/-- C8 (witness). -/
theorem base64_roundtrip_codec_witness :
    (∀ x ∈ [77, 97, 110], x < 256) ∧
    atobFn (btoaFn [77, 97, 110]) = some [77, 97, 110] :=
  ⟨by decide, (base64_roundtrip_codec [77, 97, 110] (by decide)).1⟩

/-- C9: a downstream `ping` with no `ping_event.event_id`, or with an
empty one, changes nothing: no pong is sent, no socket is closed, the
state is untouched and subsequent events are processed as before. -/
theorem ping_without_id_is_noop (s : MB) :
    step s (.elevenMsg (.ping none)) = s ∧
    step s (.elevenMsg (.ping (some ""))) = s := by
  constructor
  · rw [step]
    split
    · rw [elevenOnmessage]
      rw [if_neg (by decide)]
    · rfl
  · rw [step]
    split
    · rw [elevenOnmessage]
      rw [if_neg (by decide)]
    · rfl

/-- C10: a downstream `audio` event carrying neither an `audio.chunk`
nor an `audio_event.audio_base_64` field changes nothing: no media frame
is sent to the caller, no socket is closed, and the bridge continues
with subsequent events. -/
theorem empty_audio_event_is_noop (s : MB) :
    step s (.elevenMsg (.audio none none)) = s := by
  rw [step]
  split
  · rw [elevenOnmessage]
    split
    · simp [jsOr, truthy]
    · rfl
  · rfl
